import Mathlib

/-!
Verification development for a small HTTP JSON key-value store backed by a
managed relational database (the `kv_store` table).  The definitions below are
a shallow embedding of the application code in `src/`:

* `Json` models `serde_json::Value` trees (numbers as integers);
* `uuidParse` models `uuid::Uuid::parse_str` (the four accepted text formats:
  simple 32-hex, hyphenated 36-char, braced 38-char, URN 45-char, with
  case-insensitive hex digits), `uuidStr` models `Uuid::to_string`
  (lowercase hyphenated);
* `Store` models the contents of the backing table keyed by the UUID string;
  `SpannerClient.upsert` / `SpannerClient.read` / `SpannerClient.health_check`
  / `SpannerClient.list_all` model the data-access layer of `src/spanner.rs`,
  with the server-assigned commit timestamp passed explicitly and the SQL that
  the code issues (`LIKE pattern%` filter, ORDER BY, LIMIT/OFFSET) given its
  standard semantics;
* `buildDataQuery` is a literal translation of the query-string construction
  in `SpannerClient::list_all`;
* `putStep` / `getStep` / `parseSortParam` / `healthStep` model the HTTP
  handlers of `src/handlers/`, recording which store operations they issue.
-/

/-- JSON value tree, modelling `serde_json::Value` (numbers as integers). -/
inductive Json where
  | null
  | bool (b : Bool)
  | num (n : Int)
  | str (s : String)
  | arr (elems : List Json)
  | obj (fields : List (String × Json))

/-- Hex digit value of a character, case-insensitive
(models the hex table of the uuid crate). -/
def hexVal (c : Char) : Option Nat :=
  if 48 ≤ c.toNat ∧ c.toNat ≤ 57 then some (c.toNat - 48)
  else if 97 ≤ c.toNat ∧ c.toNat ≤ 102 then some (c.toNat - 87)
  else if 65 ≤ c.toNat ∧ c.toNat ≤ 70 then some (c.toNat - 55)
  else none

/-- Parse a run of hex digits into their nybble values; `none` on any
non-hex character. -/
def hexList : List Char → Option (List Nat)
  | [] => some []
  | c :: cs =>
    match hexVal c, hexList cs with
    | some v, some vs => some (v :: vs)
    | _, _ => none

/-- Parse the 36-character hyphenated UUID body: hyphens at positions
8, 13, 18, 23 and hex digits elsewhere (models `parse_hyphenated`). -/
def hyphParse (cs : List Char) : Option (List Nat) :=
  if cs[8]? = some '-' ∧ cs[13]? = some '-' ∧ cs[18]? = some '-' ∧ cs[23]? = some '-' then
    hexList (cs.take 8 ++ ((cs.drop 9).take 4 ++ ((cs.drop 14).take 4 ++
      ((cs.drop 19).take 4 ++ cs.drop 24))))
  else none

/-- Model of `uuid::Uuid::parse_str` / `try_parse`: a 32-character input is
parsed as the simple (non-hyphenated) form; 36 characters as the hyphenated
form; 38 characters as a braced hyphenated form; 45 characters as
`urn:uuid:` followed by the hyphenated form.  The result is the list of the
32 nybble values of the 128-bit identifier. -/
def uuidParse (cs : List Char) : Option (List Nat) :=
  if cs.length = 32 then hexList cs
  else if cs.length = 36 then hyphParse cs
  else if cs.length = 38 then
    match cs with
    | c :: rest =>
      if c = '\x7b' ∧ rest.getLast? = some '\x7d' then hyphParse rest.dropLast else none
    | [] => none
  else if cs.length = 45 then
    if cs.take 9 = ['u', 'r', 'n', ':', 'u', 'u', 'i', 'd', ':'] then hyphParse (cs.drop 9)
    else none
  else none

/-- Lowercase hex character of a nybble value. -/
def nybbleChar (n : Nat) : Char :=
  if n < 10 then Char.ofNat (48 + n) else Char.ofNat (87 + n)

/-- The canonical character sequence of a UUID: lowercase hex in the
8-4-4-4-12 hyphenated layout (models `Uuid::to_string`). -/
def uuidChars (u : List Nat) : List Char :=
  let h := u.map nybbleChar
  h.take 8 ++ ('-' :: ((h.drop 8).take 4 ++ ('-' :: ((h.drop 12).take 4 ++
    ('-' :: ((h.drop 16).take 4 ++ ('-' :: h.drop 20)))))))

/-- Canonical lowercase hyphenated string of a UUID (models `Uuid::to_string`). -/
def uuidStr (u : List Nat) : String :=
  String.mk (uuidChars u)

/-- Is the character a lowercase hex digit? -/
def isLowerHex (c : Char) : Bool :=
  (decide (48 ≤ c.toNat) && decide (c.toNat ≤ 57)) ||
    (decide (97 ≤ c.toNat) && decide (c.toNat ≤ 102))

/-- Consume exactly `n` lowercase hex characters, returning the rest. -/
def hexRun : Nat → List Char → Option (List Char)
  | 0, cs => some cs
  | _ + 1, [] => none
  | n + 1, c :: cs => if isLowerHex c then hexRun n cs else none

/-- Consume a leading hyphen from a partial-parse result. -/
def expectHyphen : Option (List Char) → Option (List Char)
  | some ('-' :: r) => some r
  | _ => none

/-- Spec-side predicate: the string is in canonical RFC 4122 UUID text form,
i.e. the lowercase hyphenated hex layout 8-4-4-4-12. -/
def isCanonicalUuid (cs : List Char) : Bool :=
  ((((expectHyphen (hexRun 8 cs)).bind fun r1 => expectHyphen (hexRun 4 r1)).bind
      fun r2 => expectHyphen (hexRun 4 r2)).bind
      fun r3 => expectHyphen (hexRun 4 r3)).bind (fun r4 => hexRun 12 r4) == some []

/-- Spec-side predicate: `s` starts with `p` (exact character match at
position 0, no pattern semantics). -/
def charsStart : List Char → List Char → Bool
  | [], _ => true
  | _ :: _, [] => false
  | p :: ps, c :: cs => (p == c) && charsStart ps cs

/-- Spec-side predicate on strings: exact starts-with at position 0. -/
def strStarts (p s : String) : Bool :=
  charsStart p.data s.data

/-- One row of the `kv_store` table: UUID-string key, JSON document, and the
two server-assigned commit timestamps. -/
structure KvEntry where
  key : String
  value : Json
  created_at : Nat
  updated_at : Nat

/-- The contents of the `kv_store` table. -/
abbrev Store := List KvEntry

/-- Insert-or-update on the primary key `k`, writing the document and setting
both timestamp columns to the commit timestamp `now` (the row mutation built
by `SpannerClient::upsert`). -/
def storeUpsert (k : String) (v : Json) (now : Nat) : Store → Store
  | [] => [⟨k, v, now, now⟩]
  | e :: rest => if e.key = k then ⟨k, v, now, now⟩ :: rest else e :: storeUpsert k v now rest

/-- Primary-key lookup in the table. -/
def storeLookup (k : String) : Store → Option KvEntry
  | [] => none
  | e :: rest => if e.key = k then some e else storeLookup k rest

/-- Sort order options for list queries (`SortOrder` in `src/spanner.rs`). -/
inductive SortOrder where
  | KeyAsc
  | KeyDesc
  | CreatedAsc
  | CreatedDesc
  | UpdatedAsc
  | UpdatedDesc
deriving DecidableEq

/-- The fixed ORDER BY fragment of each sort variant (`SortOrder::to_sql`). -/
def SortOrder.toSql : SortOrder → String
  | .KeyAsc => "id ASC"
  | .KeyDesc => "id DESC"
  | .CreatedAsc => "created_at ASC"
  | .CreatedDesc => "created_at DESC"
  | .UpdatedAsc => "updated_at ASC"
  | .UpdatedDesc => "updated_at DESC"

/-- The row comparator implied by each ORDER BY fragment. -/
def sortLe : SortOrder → KvEntry → KvEntry → Bool
  | .KeyAsc, a, b => decide (a.key ≤ b.key)
  | .KeyDesc, a, b => decide (b.key ≤ a.key)
  | .CreatedAsc, a, b => decide (a.created_at ≤ b.created_at)
  | .CreatedDesc, a, b => decide (b.created_at ≤ a.created_at)
  | .UpdatedAsc, a, b => decide (a.updated_at ≤ b.updated_at)
  | .UpdatedDesc, a, b => decide (b.updated_at ≤ a.updated_at)

/-- Insert into a sorted list (helper of `sortBy`). -/
def insSorted (le : KvEntry → KvEntry → Bool) (a : KvEntry) : List KvEntry → List KvEntry
  | [] => [a]
  | b :: bs => if le a b then a :: b :: bs else b :: insSorted le a bs

/-- Sorting of the result rows (the effect of the ORDER BY clause). -/
def sortBy (le : KvEntry → KvEntry → Bool) : List KvEntry → List KvEntry
  | [] => []
  | a :: as => insSorted le a (sortBy le as)

/-- SQL `LIKE`: does a suffix of the target match `f`?  (Used for `%`, which
matches any number of characters.) -/
def likeTail (f : List Char → Bool) : List Char → Bool
  | [] => f []
  | c :: s => f (c :: s) || likeTail f s

/-- Standard SQL `LIKE` pattern matching over the whole string: `%` matches
any number of characters, `_` matches exactly one character, every other
pattern character matches itself. -/
def likeMatch : List Char → List Char → Bool
  | [], s => s.isEmpty
  | '%' :: ps, s => likeTail (likeMatch ps) s
  | '_' :: ps, s =>
    match s with
    | [] => false
    | _ :: s2 => likeMatch ps s2
  | p :: ps, s =>
    match s with
    | [] => false
    | c :: s2 => (p == c) && likeMatch ps s2

/-- The LIKE pattern built by `SpannerClient::list_all`:
`format!("{}%", prefix)` with no escaping of the prefix. -/
def likePattern (p : String) : List Char :=
  p.data ++ ['%']

/-- The row filter of `list_all`: no filter without a prefix option, else
`id LIKE pattern` with the pattern above. -/
def keeps (pfx : Option String) (k : String) : Bool :=
  match pfx with
  | none => true
  | some p => likeMatch (likePattern p) k.data

/-- The base SELECT of the data query of `list_all`. -/
def baseDataQuery : Option String → String
  | some _ => "SELECT id, data, created_at, updated_at FROM kv_store WHERE id LIKE @prefix"
  | none => "SELECT id, data, created_at, updated_at FROM kv_store"

/-- Literal translation of the data-query string construction in
`SpannerClient::list_all`: base SELECT, then ORDER BY, then the LIMIT/OFFSET
suffix built by the nested conditionals of the source. -/
def buildDataQuery (pfx : Option String) (sort : SortOrder) (limit : Option Int)
    (offset : Int) : String :=
  let q1 := baseDataQuery pfx ++ " ORDER BY " ++ sort.toSql
  match limit with
  | some n =>
    let q2 := q1 ++ " LIMIT " ++ toString n
    if offset > 0 then q2 ++ " OFFSET " ++ toString offset else q2
  | none =>
    if offset > 0 then
      q1 ++ " LIMIT " ++ toString (9223372036854775807 : Int) ++ " OFFSET " ++ toString offset
    else q1

/-- Spec-side pagination policy, following the words of the specification:
with a limit, `LIMIT n` then `OFFSET offset` only when `offset > 0`; with no
limit but a positive offset, a sentinel maximum limit together with the
offset; otherwise no pagination clause at all. -/
def pagPolicySpec (limit : Option Int) (offset : Int) : String :=
  match limit with
  | some n => " LIMIT " ++ toString n ++ (if offset > 0 then " OFFSET " ++ toString offset else "")
  | none =>
    if offset > 0 then
      " LIMIT " ++ toString (9223372036854775807 : Int) ++ " OFFSET " ++ toString offset
    else ""

/-- Result of a list query with pagination info (`ListResult`). -/
structure ListResult where
  entries : List KvEntry
  total_count : Int

namespace SpannerClient

/-- `SpannerClient::upsert`: key the row by `Uuid::to_string` of the id and
apply the insert-or-update mutation; both timestamp columns receive the
commit timestamp. -/
def upsert (st : Store) (u : List Nat) (v : Json) (now : Nat) : Store :=
  storeUpsert (uuidStr u) v now st

/-- `SpannerClient::read`: `SELECT data FROM kv_store WHERE id = @id`; a row
yields the stored document, no row yields `none`; the error branch of the
return type carries store failures. -/
def read (st : Store) (u : List Nat) : Except String (Option Json) :=
  .ok ((storeLookup (uuidStr u) st).map KvEntry.value)

/-- `SpannerClient::health_check`: run `SELECT 1` and require at least one
result row; an empty result set is an error. -/
def health_check (rows : List Int) : Except String Unit :=
  match rows with
  | [] => .error "Health check query returned no results"
  | _ :: _ => .ok ()

/-- `SpannerClient::list_all`: count the rows matching the LIKE filter, then
select the matching rows in the requested order with the LIMIT/OFFSET policy
of `buildDataQuery` (LIMIT skips nothing unless `offset > 0`; without a limit
but with a positive offset the sentinel `i64::MAX` limit is used). -/
def list_all (st : Store) (pfx : Option String) (sort : SortOrder) (limit : Option Int)
    (offset : Int) : ListResult :=
  let matched := st.filter (fun e => keeps pfx e.key)
  let total : Int := matched.length
  let sorted := sortBy (sortLe sort) matched
  let paged :=
    match limit with
    | some n =>
      let base := if offset > 0 then sorted.drop offset.toNat else sorted
      base.take n.toNat
    | none =>
      if offset > 0 then (sorted.drop offset.toNat).take 9223372036854775807 else sorted
  ⟨paged, total⟩

end SpannerClient

/-- The error taxonomy of `src/error.rs` (`ApiError`). -/
inductive ApiError where
  | invalidUuid (s : String)
  | keyNotFound (u : List Nat)
  | databaseError (e : String)
  | jsonError (e : String)
  | invalidQueryParam (msg : String)
deriving DecidableEq

/-- A store operation issued by a handler (used to show that rejected
requests touch the store not at all). -/
inductive StoreOp where
  | upsertOp (key : String)
  | readOp (key : String)
deriving DecidableEq

/-- Outcome of the PUT handler: response (the echoed id on success), the
resulting store, and the store operations issued. -/
structure PutOut where
  res : Except ApiError String
  store : Store
  ops : List StoreOp

/-- Outcome of the GET handler: response (id and document on success) and the
store operations issued. -/
structure GetOut where
  res : Except ApiError (String × Json)
  ops : List StoreOp

/-- `put_handler`: parse the path segment as a UUID (otherwise fail with
`InvalidUuid` before any store access), upsert, and echo `id.to_string()`. -/
def putStep (st : Store) (s : String) (v : Json) (now : Nat) : PutOut :=
  match uuidParse s.data with
  | none => ⟨.error (.invalidUuid s), st, []⟩
  | some u => ⟨.ok (uuidStr u), SpannerClient.upsert st u v now, [.upsertOp (uuidStr u)]⟩

/-- `get_handler`: parse the path segment as a UUID (otherwise fail with
`InvalidUuid` before any store access), read, and return the document or
`KeyNotFound`. -/
def getStep (st : Store) (s : String) : GetOut :=
  match uuidParse s.data with
  | none => ⟨.error (.invalidUuid s), []⟩
  | some u =>
    match SpannerClient.read st u with
    | .ok (some d) => ⟨.ok (uuidStr u, d), [.readOp (uuidStr u)]⟩
    | .ok none => ⟨.error (.keyNotFound u), [.readOp (uuidStr u)]⟩
    | .error e => ⟨.error (.databaseError e), [.readOp (uuidStr u)]⟩

/-- Does the handler outcome carry the invalid-identifier (400 invalid-UUID)
error? -/
def isInvalidIdErr {α : Type} : Except ApiError α → Bool
  | .error (.invalidUuid _) => true
  | _ => false

/-- The apostrophe character (used verbatim in the sort error message). -/
def squote : Char := Char.ofNat 39

/-- The six legal sort tokens of the list endpoint. -/
def sortTokens : List String :=
  ["key_asc", "key_desc", "created_asc", "created_desc", "updated_asc", "updated_desc"]

/-- The error message built by `list_handler` for an unsupported sort token:
it lists the six legal values and quotes the offending input. -/
def sortErrMsg (s : String) : String :=
  "sort must be one of: key_asc, key_desc, created_asc, created_desc, updated_asc, updated_desc, got "
    ++ String.mk [squote] ++ s ++ String.mk [squote]

/-- The sort-parameter parsing of `list_handler`: exact, case-sensitive match
of the six tokens, `KeyAsc` when the parameter is absent, and
`InvalidQueryParam` with `sortErrMsg` otherwise. -/
def parseSortParam : Option String → Except ApiError SortOrder
  | none => .ok .KeyAsc
  | some s =>
    if s = "key_asc" then .ok .KeyAsc
    else if s = "key_desc" then .ok .KeyDesc
    else if s = "created_asc" then .ok .CreatedAsc
    else if s = "created_desc" then .ok .CreatedDesc
    else if s = "updated_asc" then .ok .UpdatedAsc
    else if s = "updated_desc" then .ok .UpdatedDesc
    else .error (.invalidQueryParam (sortErrMsg s))

/-- Outcome of the health endpoint: HTTP status code, the `status` field, and
the optional `error` field. -/
structure HealthOut where
  status_code : Nat
  status : String
  err : Option String
deriving DecidableEq

/-- `health_handler`: 200 `healthy` when `health_check` succeeds, else 503
`unhealthy` with the wrapped error message. -/
def healthStep (rows : List Int) : HealthOut :=
  match SpannerClient.health_check rows with
  | .ok _ => ⟨200, "healthy", none⟩
  | .error e => ⟨503, "unhealthy", some ("Cannot connect to database: " ++ e)⟩

/-! ### Helper lemmas -/

theorem storeLookup_upsert_self (st : Store) (k : String) (v : Json) (now : Nat) :
    storeLookup k (storeUpsert k v now st) = some ⟨k, v, now, now⟩ := by
  induction st with
  | nil => simp [storeUpsert, storeLookup]
  | cons e rest ih =>
    by_cases h : e.key = k
    · simp [storeUpsert, storeLookup, h]
    · simp [storeUpsert, storeLookup, h, ih]

theorem length_insSorted (le : KvEntry → KvEntry → Bool) (a : KvEntry) (l : List KvEntry) :
    (insSorted le a l).length = l.length + 1 := by
  induction l with
  | nil => rfl
  | cons b bs ih => by_cases h : le a b <;> simp [insSorted, h, ih]

theorem length_sortBy (le : KvEntry → KvEntry → Bool) (l : List KvEntry) :
    (sortBy le l).length = l.length := by
  induction l with
  | nil => rfl
  | cons a as ih => simp [sortBy, length_insSorted, ih]

theorem list_all_total (st : Store) (pfx : Option String) (sort : SortOrder)
    (limit : Option Int) (offset : Int) :
    (SpannerClient.list_all st pfx sort limit offset).total_count =
      ((st.filter (fun e => keeps pfx e.key)).length : Int) := by
  cases limit <;> rfl

theorem string_append_empty (s : String) : s ++ "" = s := by
  cases s
  simp [String.append]

/-! ### Claim theorems -/

/-- C1: for every id and JSON value `v`, `upsert(id, v)` followed by
`read(id)` returns `Some v`, the value tree unchanged. -/
theorem claim_c1_roundtrip (st : Store) (u : List Nat) (v : Json) (now : Nat) :
    SpannerClient.read (SpannerClient.upsert st u v now) u = Except.ok (some v) := by
  simp [SpannerClient.read, SpannerClient.upsert, storeLookup_upsert_self]

/-- C5: every `upsert` sets both `created_at` and `updated_at` of the entry to
that call's commit timestamp; after a second upsert to the same id,
`created_at` equals the second commit time (it is not preserved), and
`updated_at` is at least its value after the first call. -/
theorem claim_c5_timestamps (st : Store) (u : List Nat) (v1 v2 : Json) (t1 t2 : Nat)
    (h : t1 ≤ t2) :
    storeLookup (uuidStr u) (SpannerClient.upsert st u v1 t1) =
      some ⟨uuidStr u, v1, t1, t1⟩ ∧
    storeLookup (uuidStr u)
        (SpannerClient.upsert (SpannerClient.upsert st u v1 t1) u v2 t2) =
      some ⟨uuidStr u, v2, t2, t2⟩ ∧
    t1 ≤ t2 :=
  ⟨storeLookup_upsert_self st (uuidStr u) v1 t1,
   storeLookup_upsert_self _ (uuidStr u) v2 t2, h⟩

theorem claim_c5_timestamps_witness :
    1 ≤ 2 ∧
    (storeLookup (uuidStr (List.replicate 32 0))
        (SpannerClient.upsert [] (List.replicate 32 0) Json.null 1) =
      some ⟨uuidStr (List.replicate 32 0), Json.null, 1, 1⟩ ∧
    storeLookup (uuidStr (List.replicate 32 0))
        (SpannerClient.upsert
          (SpannerClient.upsert [] (List.replicate 32 0) Json.null 1)
          (List.replicate 32 0) (Json.bool true) 2) =
      some ⟨uuidStr (List.replicate 32 0), Json.bool true, 2, 2⟩ ∧
    1 ≤ 2) :=
  ⟨by decide, claim_c5_timestamps [] (List.replicate 32 0) Json.null (Json.bool true) 1 2 (by decide)⟩

/-- C8: reading an id that was never upserted yields the success outcome
`Ok(None)`, never the store-failure branch. -/
theorem claim_c8_notfound (st : Store) (u : List Nat)
    (h : storeLookup (uuidStr u) st = none) :
    SpannerClient.read st u = Except.ok none ∧
    ∀ e : String, SpannerClient.read st u ≠ Except.error e := by
  refine ⟨by simp [SpannerClient.read, h], fun e => by simp [SpannerClient.read]⟩

theorem claim_c8_notfound_witness :
    storeLookup (uuidStr (List.replicate 32 1)) [] = none ∧
    (SpannerClient.read [] (List.replicate 32 1) = Except.ok none ∧
     ∀ e : String, SpannerClient.read [] (List.replicate 32 1) ≠ Except.error e) :=
  ⟨rfl, claim_c8_notfound [] (List.replicate 32 1) rfl⟩

/-- C10: `health_check` succeeds exactly when the trivial query yields at
least one row; on an empty result set the health endpoint answers 503 with
status `unhealthy`, and on a nonempty one 200 with status `healthy`. -/
theorem claim_c10_health :
    (∀ rows : List Int,
      SpannerClient.health_check rows = Except.ok () ↔ rows.isEmpty = false) ∧
    healthStep [] =
      ⟨503, "unhealthy",
        some "Cannot connect to database: Health check query returned no results"⟩ ∧
    (∀ (r : Int) (rs : List Int), healthStep (r :: rs) = ⟨200, "healthy", none⟩) := by
  refine ⟨fun rows => ?_, rfl, fun r rs => rfl⟩
  cases rows <;> simp [SpannerClient.health_check]

/-- C4: the data statement of `list_all` is the filtered, ordered SELECT
followed exactly by the pagination clause of the stated policy: `LIMIT n`
(plus `OFFSET offset` only when `offset > 0`) when a limit is given, the
sentinel maximum limit together with the offset when only a positive offset
is given, and no pagination clause at all otherwise. -/
theorem claim_c4_pagination (pfx : Option String) (sort : SortOrder)
    (limit : Option Int) (offset : Int) :
    buildDataQuery pfx sort limit offset =
      baseDataQuery pfx ++ " ORDER BY " ++ sort.toSql ++ pagPolicySpec limit offset := by
  cases limit with
  | none =>
    by_cases h : offset > 0 <;>
      simp [buildDataQuery, pagPolicySpec, h, String.append_assoc, string_append_empty]
  | some n =>
    by_cases h : offset > 0 <;>
      simp [buildDataQuery, pagPolicySpec, h, String.append_assoc, string_append_empty]

theorem hexVal_lt (c : Char) (v : Nat) (h : hexVal c = some v) : v < 16 := by
  unfold hexVal at h
  split_ifs at h <;> simp at h <;> omega

theorem hexList_valid (cs : List Char) (u : List Nat) (h : hexList cs = some u) :
    u.length = cs.length ∧ ∀ n ∈ u, n < 16 := by
  induction cs generalizing u with
  | nil =>
    simp [hexList] at h
    subst h
    simp
  | cons c rest ih =>
    cases hv : hexVal c with
    | none => simp [hexList, hv] at h
    | some v =>
      cases ht : hexList rest with
      | none => simp [hexList, hv, ht] at h
      | some vs =>
        simp [hexList, hv, ht] at h
        rcases ih vs ht with ⟨hl, hm⟩
        subst h
        refine ⟨by simp [hl], ?_⟩
        intro n hn
        rcases List.mem_cons.mp hn with rfl | hn2
        · exact hexVal_lt c n hv
        · exact hm n hn2

theorem hyphParse_valid (cs : List Char) (u : List Nat) (hlen : cs.length = 36)
    (h : hyphParse cs = some u) : u.length = 32 ∧ ∀ n ∈ u, n < 16 := by
  unfold hyphParse at h
  split_ifs at h
  rcases hexList_valid _ _ h with ⟨hl, hm⟩
  refine ⟨?_, hm⟩
  simp [List.length_append, List.length_take, List.length_drop, hlen] at hl
  omega

theorem uuidParse_valid (cs : List Char) (u : List Nat) (h : uuidParse cs = some u) :
    u.length = 32 ∧ ∀ n ∈ u, n < 16 := by
  unfold uuidParse at h
  split_ifs at h with h32 h36 h38 h45 hurn
  · rcases hexList_valid _ _ h with ⟨hl, hm⟩
    exact ⟨by omega, hm⟩
  · exact hyphParse_valid _ _ h36 h
  · cases cs with
    | nil => simp at h38
    | cons c rest =>
      have h2 : (if c = '\x7b' ∧ rest.getLast? = some '\x7d' then hyphParse rest.dropLast
          else none) = some u := h
      split_ifs at h2
      have hdl : rest.dropLast.length = 36 := by
        have hr : rest.length = 37 := by simpa using h38
        simp [List.length_dropLast, hr]
      exact hyphParse_valid _ _ hdl h2
  · have hdr : (cs.drop 9).length = 36 := by simp [List.length_drop, h45]
    exact hyphParse_valid _ _ hdr h

theorem hexRun_exact (n : Nat) (a r : List Char) (hn : a.length = n)
    (h : ∀ c ∈ a, isLowerHex c = true) : hexRun n (a ++ r) = some r := by
  subst hn
  induction a with
  | nil => rfl
  | cons c cs ih =>
    simp only [List.length_cons, List.cons_append, hexRun, h c (by simp)]
    exact ih (fun x hx => h x (by simp [hx]))

theorem nybbleChar_lowerHex (n : Nat) (h : n < 16) : isLowerHex (nybbleChar n) = true := by
  interval_cases n <;> decide

theorem canonical_of_valid (u : List Nat) (hlen : u.length = 32)
    (hval : ∀ n ∈ u, n < 16) : isCanonicalUuid (uuidChars u) = true := by
  have hmap : ∀ c ∈ u.map nybbleChar, isLowerHex c = true := by
    intro c hc
    rcases List.mem_map.mp hc with ⟨n, hn, rfl⟩
    exact nybbleChar_lowerHex n (hval n hn)
  have hml : (u.map nybbleChar).length = 32 := by simp [hlen]
  have sub1 : ∀ c ∈ (u.map nybbleChar).take 8, isLowerHex c = true :=
    fun c hc => hmap c (List.mem_of_mem_take hc)
  have sub2 : ∀ k, ∀ c ∈ ((u.map nybbleChar).drop k).take 4, isLowerHex c = true :=
    fun k c hc => hmap c (List.mem_of_mem_drop (List.mem_of_mem_take hc))
  have sub5 : ∀ c ∈ (u.map nybbleChar).drop 20, isLowerHex c = true :=
    fun c hc => hmap c (List.mem_of_mem_drop hc)
  have l1 : ((u.map nybbleChar).take 8).length = 8 := by simp [hml]
  have l2 : ∀ k, k + 4 ≤ 32 → (((u.map nybbleChar).drop k).take 4).length = 4 := by
    intro k hk; simp [hml]; omega
  have l5 : ((u.map nybbleChar).drop 20).length = 12 := by simp [hml]
  have e1 : ∀ r, hexRun 8 ((u.map nybbleChar).take 8 ++ r) = some r :=
    fun r => hexRun_exact 8 _ r l1 sub1
  have e2a : ∀ r, hexRun 4 (((u.map nybbleChar).drop 8).take 4 ++ r) = some r :=
    fun r => hexRun_exact 4 _ r (l2 8 (by omega)) (sub2 8)
  have e2b : ∀ r, hexRun 4 (((u.map nybbleChar).drop 12).take 4 ++ r) = some r :=
    fun r => hexRun_exact 4 _ r (l2 12 (by omega)) (sub2 12)
  have e2c : ∀ r, hexRun 4 (((u.map nybbleChar).drop 16).take 4 ++ r) = some r :=
    fun r => hexRun_exact 4 _ r (l2 16 (by omega)) (sub2 16)
  have e5 : hexRun 12 ((u.map nybbleChar).drop 20) = some [] := by
    rw [show (u.map nybbleChar).drop 20 = (u.map nybbleChar).drop 20 ++ [] by simp]
    exact hexRun_exact 12 _ [] (by simpa using l5) (fun c hc => sub5 c (by simpa using hc))
  have hu : uuidChars u =
      (u.map nybbleChar).take 8 ++ ('-' :: (((u.map nybbleChar).drop 8).take 4 ++
        ('-' :: (((u.map nybbleChar).drop 12).take 4 ++ ('-' :: (((u.map nybbleChar).drop 16).take 4 ++
          ('-' :: (u.map nybbleChar).drop 20))))))) := rfl
  rw [hu]
  simp [isCanonicalUuid, e1, e2a, e2b, e2c, e5, expectHyphen]

/-- C9: the handlers normalize the identifier: for any path spelling that
parses to UUID `u`, the PUT handler echoes the canonical lowercase hyphenated
string of `u` and keys the upsert by that string, so a second spelling of the
same UUID reads back the same stored entry. -/
theorem claim_c9_canonicalize (st : Store) (s1 s2 : String) (u : List Nat) (v : Json)
    (now : Nat) (h1 : uuidParse s1.data = some u) (h2 : uuidParse s2.data = some u) :
    (putStep st s1 v now).res = Except.ok (uuidStr u) ∧
    isCanonicalUuid (uuidStr u).data = true ∧
    (putStep st s1 v now).store = storeUpsert (uuidStr u) v now st ∧
    (getStep (putStep st s1 v now).store s2).res = Except.ok (uuidStr u, v) := by
  rcases uuidParse_valid _ _ h1 with ⟨hl, hv⟩
  refine ⟨?_, ?_, ?_, ?_⟩
  · simp [putStep, h1]
  · exact canonical_of_valid u hl hv
  · simp [putStep, h1, SpannerClient.upsert]
  · simp [putStep, getStep, h1, h2, SpannerClient.read, SpannerClient.upsert,
      storeLookup_upsert_self]

theorem claim_c9_canonicalize_witness :
    uuidParse ("550E8400-E29B-41D4-A716-446655440000" : String).data =
      some [5, 5, 0, 14, 8, 4, 0, 0, 14, 2, 9, 11, 4, 1, 13, 4, 10, 7, 1, 6, 4, 4, 6, 6, 5, 5, 4, 4, 0, 0, 0, 0] ∧
    uuidParse ("550e8400e29b41d4a716446655440000" : String).data =
      some [5, 5, 0, 14, 8, 4, 0, 0, 14, 2, 9, 11, 4, 1, 13, 4, 10, 7, 1, 6, 4, 4, 6, 6, 5, 5, 4, 4, 0, 0, 0, 0] ∧
    ((putStep [] "550E8400-E29B-41D4-A716-446655440000" Json.null 0).res =
      Except.ok (uuidStr [5, 5, 0, 14, 8, 4, 0, 0, 14, 2, 9, 11, 4, 1, 13, 4, 10, 7, 1, 6, 4, 4, 6, 6, 5, 5, 4, 4, 0, 0, 0, 0]) ∧
    isCanonicalUuid (uuidStr [5, 5, 0, 14, 8, 4, 0, 0, 14, 2, 9, 11, 4, 1, 13, 4, 10, 7, 1, 6, 4, 4, 6, 6, 5, 5, 4, 4, 0, 0, 0, 0]).data = true ∧
    (putStep [] "550E8400-E29B-41D4-A716-446655440000" Json.null 0).store =
      storeUpsert (uuidStr [5, 5, 0, 14, 8, 4, 0, 0, 14, 2, 9, 11, 4, 1, 13, 4, 10, 7, 1, 6, 4, 4, 6, 6, 5, 5, 4, 4, 0, 0, 0, 0]) Json.null 0 [] ∧
    (getStep (putStep [] "550E8400-E29B-41D4-A716-446655440000" Json.null 0).store
        "550e8400e29b41d4a716446655440000").res =
      Except.ok (uuidStr [5, 5, 0, 14, 8, 4, 0, 0, 14, 2, 9, 11, 4, 1, 13, 4, 10, 7, 1, 6, 4, 4, 6, 6, 5, 5, 4, 4, 0, 0, 0, 0], Json.null)) :=
  ⟨by decide, by decide,
   claim_c9_canonicalize [] "550E8400-E29B-41D4-A716-446655440000"
     "550e8400e29b41d4a716446655440000"
     [5, 5, 0, 14, 8, 4, 0, 0, 14, 2, 9, 11, 4, 1, 13, 4, 10, 7, 1, 6, 4, 4, 6, 6, 5, 5, 4, 4, 0, 0, 0, 0]
     Json.null 0 (by decide) (by decide)⟩

/-- C3 (amended): the PUT and GET handlers fail with the invalid-identifier
error, with no store operation issued, exactly when the path segment parses
under none of the UUID text formats accepted by the parser (hyphenated,
simple, braced, URN; hex case-insensitive). -/
theorem claim_c3_validation (s : String) (st : Store) (v : Json) (now : Nat) :
    (isInvalidIdErr (putStep st s v now).res = true ↔ uuidParse s.data = none) ∧
    (isInvalidIdErr (getStep st s).res = true ↔ uuidParse s.data = none) ∧
    (uuidParse s.data = none →
      (putStep st s v now).res = Except.error (ApiError.invalidUuid s) ∧
      (putStep st s v now).store = st ∧
      (putStep st s v now).ops = [] ∧
      (getStep st s).res = Except.error (ApiError.invalidUuid s) ∧
      (getStep st s).ops = []) := by
  cases hp : uuidParse s.data with
  | none => simp [putStep, getStep, isInvalidIdErr, hp]
  | some u =>
    refine ⟨?_, ?_, by simp [hp]⟩
    · simp [putStep, isInvalidIdErr, hp]
    · cases hl : storeLookup (uuidStr u) st <;>
        simp [getStep, SpannerClient.read, isInvalidIdErr, hp, hl]

theorem claim_c3_validation_witness :
    uuidParse ("not-a-uuid" : String).data = none ∧
    ((putStep [] "not-a-uuid" Json.null 0).res =
        Except.error (ApiError.invalidUuid "not-a-uuid") ∧
      (putStep [] "not-a-uuid" Json.null 0).store = [] ∧
      (putStep [] "not-a-uuid" Json.null 0).ops = [] ∧
      (getStep [] "not-a-uuid").res = Except.error (ApiError.invalidUuid "not-a-uuid") ∧
      (getStep [] "not-a-uuid").ops = []) :=
  ⟨by decide, (claim_c3_validation "not-a-uuid" [] Json.null 0).2.2 (by decide)⟩

/-- C3 as stated is false: the simple (non-hyphenated) spelling is not in the
canonical hyphenated UUID text form, yet the PUT handler accepts it and
issues an upsert instead of failing with the invalid-identifier error. -/
theorem claim_c3_counterexample :
    isCanonicalUuid ("550e8400e29b41d4a716446655440000" : String).data = false ∧
    (putStep [] "550e8400e29b41d4a716446655440000" Json.null 0).res =
      Except.ok "550e8400-e29b-41d4-a716-446655440000" ∧
    (putStep [] "550e8400e29b41d4a716446655440000" Json.null 0).ops =
      [StoreOp.upsertOp "550e8400-e29b-41d4-a716-446655440000"] :=
  ⟨by decide, by rfl, by decide⟩

/-- C2 is a code bug: `list_all` passes the user prefix into a SQL LIKE
pattern without escaping, so a prefix containing the wildcard `_` matches
entries whose key does not start with it; here total_count is 1 and the
single entry is returned although its key does not start with the prefix. -/
theorem claim_c2_prefix_like_leak :
    (SpannerClient.list_all [⟨"aaaaaaaa-aaaa-aaaa-aaaa-aaaaaaaaaaaa", Json.null, 0, 0⟩]
        (some "_") SortOrder.KeyAsc none 0).total_count = 1 ∧
    (SpannerClient.list_all [⟨"aaaaaaaa-aaaa-aaaa-aaaa-aaaaaaaaaaaa", Json.null, 0, 0⟩]
        (some "_") SortOrder.KeyAsc none 0).entries.map KvEntry.key =
      ["aaaaaaaa-aaaa-aaaa-aaaa-aaaaaaaaaaaa"] ∧
    strStarts "_" "aaaaaaaa-aaaa-aaaa-aaaa-aaaaaaaaaaaa" = false :=
  ⟨by decide, by decide, by decide⟩

theorem data_mk (l : List Char) : (String.mk l).data = l := rfl

theorem sortErrMsg_split (s P T Q : String)
    (hsplit : ("sort must be one of: key_asc, key_desc, created_asc, created_desc, updated_asc, updated_desc, got " : String).data =
      P.data ++ (T.data ++ Q.data)) :
    ∃ a b, (sortErrMsg s).data = a ++ T.data ++ b := by
  refine ⟨P.data, Q.data ++ ([squote] ++ (s.data ++ [squote])), ?_⟩
  simp only [sortErrMsg, String.data_append, data_mk, List.append_assoc,
    List.singleton_append] at hsplit ⊢
  rw [hsplit]
  simp [List.append_assoc]

theorem list_all_entries_length (st : Store) (pfx : Option String) (sort : SortOrder)
    (limit : Option Int) (offset : Int) :
    (SpannerClient.list_all st pfx sort limit offset).entries.length =
      (match limit with
       | some n => min n.toNat
           ((st.filter (fun e => keeps pfx e.key)).length -
             (if offset > 0 then offset.toNat else 0))
       | none =>
         if offset > 0 then
           min 9223372036854775807
             ((st.filter (fun e => keeps pfx e.key)).length - offset.toNat)
         else (st.filter (fun e => keeps pfx e.key)).length) := by
  cases limit with
  | some n =>
    by_cases h : offset > 0 <;>
      simp [SpannerClient.list_all, h, length_sortBy, List.length_take, List.length_drop]
  | none =>
    by_cases h : offset > 0 <;>
      simp [SpannerClient.list_all, h, length_sortBy, List.length_take, List.length_drop]

/-- C6: the sort query parameter is parsed case-sensitively with no trimming,
accepting exactly the six tokens; any other present string fails with
`InvalidQueryParam` whose message lists all six legal values and contains the
offending input verbatim; an absent parameter defaults to `KeyAsc`. -/
theorem claim_c6_sort_parsing (s : String) (h : s ∉ sortTokens) :
    parseSortParam none = Except.ok SortOrder.KeyAsc ∧
    parseSortParam (some s) = Except.error (ApiError.invalidQueryParam (sortErrMsg s)) ∧
    (∀ t o, parseSortParam (some t) = Except.ok o ↔
      ((t = "key_asc" ∧ o = SortOrder.KeyAsc) ∨ (t = "key_desc" ∧ o = SortOrder.KeyDesc) ∨
       (t = "created_asc" ∧ o = SortOrder.CreatedAsc) ∨
       (t = "created_desc" ∧ o = SortOrder.CreatedDesc) ∨
       (t = "updated_asc" ∧ o = SortOrder.UpdatedAsc) ∨
       (t = "updated_desc" ∧ o = SortOrder.UpdatedDesc))) ∧
    (∀ t ∈ sortTokens, ∃ a b, (sortErrMsg s).data = a ++ t.data ++ b) ∧
    (∃ a b, (sortErrMsg s).data = a ++ s.data ++ b) := by
  simp [sortTokens] at h
  refine ⟨rfl, ?_, ?_, ?_, ?_⟩
  · simp [parseSortParam, h.1, h.2.1, h.2.2.1, h.2.2.2.1, h.2.2.2.2.1, h.2.2.2.2.2]
  · intro t o
    constructor
    · intro ht
      simp only [parseSortParam] at ht
      split_ifs at ht with g1 g2 g3 g4 g5 g6 <;> simp_all
    · rintro (⟨rfl, rfl⟩ | ⟨rfl, rfl⟩ | ⟨rfl, rfl⟩ | ⟨rfl, rfl⟩ | ⟨rfl, rfl⟩ | ⟨rfl, rfl⟩) <;> rfl
  · intro t ht
    simp [sortTokens] at ht
    rcases ht with rfl | rfl | rfl | rfl | rfl | rfl
    · exact sortErrMsg_split s "sort must be one of: " "key_asc"
        ", key_desc, created_asc, created_desc, updated_asc, updated_desc, got " (by decide)
    · exact sortErrMsg_split s "sort must be one of: key_asc, " "key_desc"
        ", created_asc, created_desc, updated_asc, updated_desc, got " (by decide)
    · exact sortErrMsg_split s "sort must be one of: key_asc, key_desc, " "created_asc"
        ", created_desc, updated_asc, updated_desc, got " (by decide)
    · exact sortErrMsg_split s "sort must be one of: key_asc, key_desc, created_asc, "
        "created_desc" ", updated_asc, updated_desc, got " (by decide)
    · exact sortErrMsg_split s
        "sort must be one of: key_asc, key_desc, created_asc, created_desc, " "updated_asc"
        ", updated_desc, got " (by decide)
    · exact sortErrMsg_split s
        "sort must be one of: key_asc, key_desc, created_asc, created_desc, updated_asc, "
        "updated_desc" ", got " (by decide)
  · refine ⟨("sort must be one of: key_asc, key_desc, created_asc, created_desc, updated_asc, updated_desc, got " : String).data ++ [squote], [squote], ?_⟩
    simp [sortErrMsg, String.data_append, data_mk, List.append_assoc]

theorem claim_c6_sort_parsing_witness :
    ("bogus" : String) ∉ sortTokens ∧
    (parseSortParam none = Except.ok SortOrder.KeyAsc ∧
     parseSortParam (some "bogus") =
       Except.error (ApiError.invalidQueryParam (sortErrMsg "bogus")) ∧
     (∀ t o, parseSortParam (some t) = Except.ok o ↔
       ((t = "key_asc" ∧ o = SortOrder.KeyAsc) ∨ (t = "key_desc" ∧ o = SortOrder.KeyDesc) ∨
        (t = "created_asc" ∧ o = SortOrder.CreatedAsc) ∨
        (t = "created_desc" ∧ o = SortOrder.CreatedDesc) ∨
        (t = "updated_asc" ∧ o = SortOrder.UpdatedAsc) ∨
        (t = "updated_desc" ∧ o = SortOrder.UpdatedDesc))) ∧
     (∀ t ∈ sortTokens, ∃ a b, (sortErrMsg "bogus").data = a ++ t.data ++ b) ∧
     (∃ a b, (sortErrMsg "bogus").data = a ++ ("bogus" : String).data ++ b)) :=
  ⟨by decide, claim_c6_sort_parsing "bogus" (by decide)⟩

/-- C7: with a fixed store, prefix and sort, the list result satisfies
`entries.length ≤ total_count`; `entries.length ≤ limit` whenever a limit is
given; `total_count` does not depend on limit or offset; and with no limit
`entries.length` is `total_count - offset` clamped at zero. -/
theorem claim_c7_invariants (st : Store) (pfx : Option String) (sort : SortOrder)
    (limit : Option Int) (offset : Int)
    (hoff : 0 ≤ offset) (hlim : ∀ n, limit = some n → 0 ≤ n)
    (hsize : st.length ≤ 9223372036854775807) :
    ((SpannerClient.list_all st pfx sort limit offset).entries.length : Int) ≤
        (SpannerClient.list_all st pfx sort limit offset).total_count ∧
      (∀ n, limit = some n →
        ((SpannerClient.list_all st pfx sort limit offset).entries.length : Int) ≤ n) ∧
      (∀ (l2 : Option Int) (o2 : Int),
        (SpannerClient.list_all st pfx sort l2 o2).total_count =
          (SpannerClient.list_all st pfx sort limit offset).total_count) ∧
      (limit = none →
        ((SpannerClient.list_all st pfx sort limit offset).entries.length : Int) =
          max ((SpannerClient.list_all st pfx sort limit offset).total_count - offset) 0) := by
  have hfl : (st.filter (fun e => keeps pfx e.key)).length ≤ st.length :=
    List.length_filter_le _ _
  refine ⟨?_, ?_, ?_, ?_⟩
  · rw [list_all_entries_length, list_all_total]
    cases limit with
    | some n => by_cases h : offset > 0 <;> simp [h]
    | none => by_cases h : offset > 0 <;> simp [h]
  · intro n hn
    subst hn
    have hn0 : 0 ≤ n := hlim n rfl
    rw [list_all_entries_length]
    by_cases h : offset > 0 <;> simp [h] <;> omega
  · intro l2 o2
    rw [list_all_total, list_all_total]
  · intro hnone
    subst hnone
    rw [list_all_entries_length, list_all_total]
    by_cases h : offset > 0 <;> simp [h] <;> omega

theorem claim_c7_invariants_witness :
    (0 : Int) ≤ 0 ∧
    (∀ n : Int, (none : Option Int) = some n → 0 ≤ n) ∧
    ([⟨"aaaaaaaa-aaaa-aaaa-aaaa-aaaaaaaaaaaa", Json.null, 0, 0⟩] : Store).length ≤
      9223372036854775807 ∧
    (((SpannerClient.list_all [⟨"aaaaaaaa-aaaa-aaaa-aaaa-aaaaaaaaaaaa", Json.null, 0, 0⟩]
          none SortOrder.KeyAsc none 0).entries.length : Int) ≤
        (SpannerClient.list_all [⟨"aaaaaaaa-aaaa-aaaa-aaaa-aaaaaaaaaaaa", Json.null, 0, 0⟩]
          none SortOrder.KeyAsc none 0).total_count ∧
      (∀ n, (none : Option Int) = some n →
        ((SpannerClient.list_all [⟨"aaaaaaaa-aaaa-aaaa-aaaa-aaaaaaaaaaaa", Json.null, 0, 0⟩]
            none SortOrder.KeyAsc none 0).entries.length : Int) ≤ n) ∧
      (∀ (l2 : Option Int) (o2 : Int),
        (SpannerClient.list_all [⟨"aaaaaaaa-aaaa-aaaa-aaaa-aaaaaaaaaaaa", Json.null, 0, 0⟩]
            none SortOrder.KeyAsc l2 o2).total_count =
          (SpannerClient.list_all [⟨"aaaaaaaa-aaaa-aaaa-aaaa-aaaaaaaaaaaa", Json.null, 0, 0⟩]
            none SortOrder.KeyAsc none 0).total_count) ∧
      ((none : Option Int) = none →
        ((SpannerClient.list_all [⟨"aaaaaaaa-aaaa-aaaa-aaaa-aaaaaaaaaaaa", Json.null, 0, 0⟩]
            none SortOrder.KeyAsc none 0).entries.length : Int) =
          max ((SpannerClient.list_all [⟨"aaaaaaaa-aaaa-aaaa-aaaa-aaaaaaaaaaaa", Json.null, 0, 0⟩]
            none SortOrder.KeyAsc none 0).total_count - 0) 0)) :=
  ⟨le_refl 0, fun _ hn => Option.noConfusion hn, by decide,
   claim_c7_invariants [⟨"aaaaaaaa-aaaa-aaaa-aaaa-aaaaaaaaaaaa", Json.null, 0, 0⟩]
     none SortOrder.KeyAsc none 0 (le_refl 0) (fun _ hn => Option.noConfusion hn) (by decide)⟩
